import Mathlib

/-!
Verification development for the SP arithmetic-expression front end
(tokenizer `Tokenizer::Tokenize` / `Tokenizer::parseToken`, parser
`SP::Parse` / `simpleParse`, AST nodes `Number` / `BinaryOperation`
with `toString` and `evaluate`).

The C++ sources are shallowly embedded: machine floating point
(`double` / `float`) is modelled by exact rationals (`Dbl`), which
agree with IEEE arithmetic on every value exercised by the claims
(small integers); `std::shared_ptr<Node>` is modelled by `NodeP`,
with `NodeP.null` standing for a null pointer; C++ exceptions are
modelled by explicit error results, and out-of-bounds iterator
dereferences (undefined behavior) by a distinguished `ub` outcome.
-/

/-- Exact rational arithmetic standing in for C++ `double`/`float`
values: a numerator/denominator pair.  Every operation of the source
that the claims exercise (integer literals, `+`, `-`, `*`) keeps the
denominator equal to 1, where this model agrees exactly with IEEE
arithmetic and structural equality coincides with numeric equality.
Division by zero (an infinity in C++) is not exercised by any claim. -/
structure Dbl where
  num : Int
  den : Int
deriving DecidableEq, Repr

/-- Embedding of a natural number. -/
def Dbl.ofNat (n : Nat) : Dbl := ⟨n, 1⟩

/-- Addition of rationals as pairs. -/
def Dbl.add (x y : Dbl) : Dbl := ⟨x.num * y.den + y.num * x.den, x.den * y.den⟩

/-- Subtraction of rationals as pairs. -/
def Dbl.sub (x y : Dbl) : Dbl := ⟨x.num * y.den - y.num * x.den, x.den * y.den⟩

/-- Multiplication of rationals as pairs. -/
def Dbl.mul (x y : Dbl) : Dbl := ⟨x.num * y.num, x.den * y.den⟩

/-- Division of rationals as pairs, normalizing the sign into the
numerator so denominators stay positive (except for division by
zero, which no claim exercises). -/
def Dbl.div (x y : Dbl) : Dbl :=
  let n := x.num * y.den
  let d := x.den * y.num
  if d < 0 then ⟨-n, -d⟩ else ⟨n, d⟩

/-- Strict order on rationals as pairs (valid for the positive
denominators maintained everywhere the claims reach). -/
def Dbl.lt (x y : Dbl) : Bool := x.num * y.den < y.num * x.den

/-- Absolute value, modelling `fabs`. -/
def Dbl.abs (x : Dbl) : Dbl := if x.num < 0 then ⟨-x.num, x.den⟩ else x

/-- Natural-number power. -/
def Dbl.powNat (x : Dbl) : Nat → Dbl
  | 0 => ⟨1, 1⟩
  | n + 1 => Dbl.mul x (Dbl.powNat x n)

/-- Integer power (used for the exponent of a parsed numeric literal). -/
def Dbl.powInt (x : Dbl) : Int → Dbl
  | Int.ofNat n => Dbl.powNat x n
  | Int.negSucc n => Dbl.div ⟨1, 1⟩ (Dbl.powNat x (n + 1))

/-- Truncation toward zero, modelling `static_cast<int>(value)`. -/
def Dbl.trunc (x : Dbl) : Int :=
  if 0 ≤ x.num then x.num.fdiv x.den else -((-x.num).fdiv x.den)

/-- Additive inverse. -/
def Dbl.neg (x : Dbl) : Dbl := ⟨-x.num, x.den⟩

/-- Character classification: C `isspace` on ASCII input
(space, \t, \n, \v, \f, \r). -/
def isSpaceC (c : Char) : Bool :=
  c.toNat = 32 ∨ c.toNat = 9 ∨ c.toNat = 10 ∨ c.toNat = 11 ∨ c.toNat = 12 ∨ c.toNat = 13

/-- Character classification: C `isalpha` on ASCII input. -/
def isAlphaC (c : Char) : Bool :=
  (65 ≤ c.toNat ∧ c.toNat ≤ 90) ∨ (97 ≤ c.toNat ∧ c.toNat ≤ 122)

/-- Character classification: C `isdigit` on ASCII input. -/
def isDigitC (c : Char) : Bool :=
  48 ≤ c.toNat ∧ c.toNat ≤ 57

/-- Character classification: C `isalnum` on ASCII input. -/
def isAlnumC (c : Char) : Bool :=
  isAlphaC c || isDigitC c

/-- Token types of `SP::Token::TokenType` (Tokenizer.hpp). -/
inductive TokenType
  | unknown
  | leftBracket
  | rightBracket
  | comma
  | number
  | keyword
  | identifier
  | operation
deriving DecidableEq, Repr

/-- Token payload `SP::Token::TokenValue = std::variant<char, double, std::string>`. -/
inductive TokenValue
  | char (c : Char)
  | num (v : Dbl)
  | str (s : String)
deriving DecidableEq, Repr

/-- Model of `SP::Token` (Tokenizer.hpp). -/
structure Token where
  type : TokenType
  value : TokenValue
deriving DecidableEq, Repr

/-- Decidable equality for `Except` results, used to state concrete
tokenizer outcomes. -/
instance {ε α : Type} [DecidableEq ε] [DecidableEq α] : DecidableEq (Except ε α) := fun x y =>
  match x, y with
  | .error a, .error b =>
    if h : a = b then isTrue (by rw [h]) else isFalse (by intro hc; cases hc; exact h rfl)
  | .error _, .ok _ => isFalse (by intro hc; cases hc)
  | .ok _, .error _ => isFalse (by intro hc; cases hc)
  | .ok a, .ok b =>
    if h : a = b then isTrue (by rw [h]) else isFalse (by intro hc; cases hc; exact h rfl)

/-- Model of the reserved-word table `KEYWORDS` (Tokenizer.cpp). -/
def KEYWORDS : List String := ["func", "if", "else"]

/-- Characters accepted inside a letter-led lexeme: the
`lexemAcceptorFn` lambda of `Tokenizer::parseToken`
(`isalnum(ch) || ch == '_'`; the captured `current != end`
conjunct is constant over the scan). -/
def lexAcceptor (ch : Char) : Bool :=
  isAlnumC ch || ch = '_'

/-- Model of `Tokenizer::skipSpaces`: advance past whitespace. -/
def skipSpacesM (cs : List Char) : List Char :=
  cs.dropWhile isSpaceC

/-- Numeric value of a digit character. -/
def digitVal (c : Char) : Nat := c.toNat - 48

/-- Value of a run of decimal digit characters. -/
def digitsToNat (ds : List Char) : Nat :=
  ds.foldl (fun acc c => acc * 10 + digitVal c) 0

/-- Fraction part consumed by `std::from_chars`: a '.' followed by a
digit run (possibly empty), or nothing.  Returns the fraction digits
and the remaining characters. -/
def fracPart (l : List Char) : List Char × List Char :=
  match l with
  | c :: r => if c = '.' then (r.takeWhile isDigitC, r.dropWhile isDigitC) else ([], l)
  | [] => ([], [])

/-- Optional exponent sign: consumed together with the exponent
digits when they are present. -/
def expSign : List Char → Int × List Char
  | '+' :: r2 => (1, r2)
  | '-' :: r2 => (-1, r2)
  | r => (1, r)

/-- Exponent part consumed by `std::from_chars`: 'e'/'E', an optional
sign and at least one digit; when no digit follows, nothing at all is
consumed. -/
def expPart (l : List Char) : Int × List Char :=
  match l with
  | e :: r =>
    if e = 'e' ∨ e = 'E' then
      let sr := expSign r
      if (sr.2.takeWhile isDigitC).isEmpty then (0, l)
      else (sr.1 * (digitsToNat (sr.2.takeWhile isDigitC) : Int), sr.2.dropWhile isDigitC)
    else (0, l)
  | [] => (0, [])

/-- Unconsumed rest of a numeric literal: characters remaining after
the digit run, the optional fraction and the optional exponent. -/
def numRest (cs : List Char) : List Char :=
  (expPart (fracPart (cs.dropWhile isDigitC)).2).2

/-- Exact value of a numeric literal: integer digits plus fraction,
scaled by the exponent. -/
def numValue (cs : List Char) : Dbl :=
  let ds := cs.takeWhile isDigitC
  let fr := fracPart (cs.dropWhile isDigitC)
  let ex := expPart fr.2
  Dbl.mul
    (Dbl.add (Dbl.ofNat (digitsToNat ds))
      (if fr.1.isEmpty then Dbl.ofNat 0
       else Dbl.div (Dbl.ofNat (digitsToNat fr.1)) (Dbl.powNat ⟨10, 1⟩ fr.1.length)))
    (Dbl.powInt ⟨10, 1⟩ ex.1)

/-- Model of `std::from_chars(current, end, value)` with
`chars_format::general` as called from `Tokenizer::parseToken`:
parses the longest valid floating-point prefix of a digit-led input
(digit run, optional '.' plus digit run, optional exponent) and
returns its exact rational value together with the unconsumed rest.
Returns `none` when the input does not start with a digit (the caller
only invokes it on digit-led input). -/
def fromCharsM : List Char → Option (Dbl × List Char)
  | [] => none
  | c :: r =>
    if isDigitC c then some (numValue (c :: r), numRest (c :: r)) else none

/-- Classification of a single non-letter non-digit character: the
`switch (ch)` at the end of `Tokenizer::parseToken`. -/
def charTokenType (c : Char) : TokenType :=
  if c = '(' then TokenType.leftBracket
  else if c = ')' then TokenType.rightBracket
  else if c = '+' ∨ c = '-' ∨ c = '/' ∨ c = '*' ∨ c = '<' ∨ c = '>' then TokenType.operation
  else if c = ',' then TokenType.comma
  else TokenType.unknown

/-- Model of `Tokenizer::parseToken`: skip whitespace, then classify
the character under the cursor.  `Except.error` models the thrown
`"NUMBER PARSING EXCEPTION"`; `.ok none` models the end of input.
Note the inverted keyword/identifier tagging taken verbatim from the
source: a lexeme found in `KEYWORDS` is tagged `identifier`, any
other letter-led lexeme is tagged `keyword`. -/
def parseTokenM (cs : List Char) : Except String (Option (Token × List Char)) :=
  match skipSpacesM cs with
  | [] => .ok none
  | c :: rest =>
    if isAlphaC c then
      let lex := (c :: rest).takeWhile lexAcceptor
      let after := (c :: rest).dropWhile lexAcceptor
      .ok (some (⟨if String.mk lex ∈ KEYWORDS then TokenType.identifier else TokenType.keyword,
                  TokenValue.str (String.mk lex)⟩, after))
    else if isDigitC c then
      match fromCharsM (c :: rest) with
      | some (v, after) => .ok (some (⟨TokenType.number, TokenValue.num v⟩, after))
      | none => .error "NUMBER PARSING EXCEPTION"
    else
      .ok (some (⟨charTokenType c, TokenValue.char c⟩, rest))

/-- Fuel-indexed tokenization loop of `Tokenizer::Tokenize`.  Each
produced token consumes at least one character, so `length + 1` units
of fuel always suffice; the fuel-exhaustion error is unreachable and
only discharges the termination obligation structurally. -/
def tokenizeF : Nat → List Char → Except String (List Token)
  | 0, _ => .error "fuelOut"
  | fuel + 1, cs =>
    match parseTokenM cs with
    | .error m => .error m
    | .ok none => .ok []
    | .ok (some (t, rest)) =>
      match tokenizeF fuel rest with
      | .error m => .error m
      | .ok ts => .ok (t :: ts)

/-- Model of `Tokenizer::Tokenize`: run the tokenization loop over the
whole input string. -/
def Tokenize (s : String) : Except String (List Token) :=
  tokenizeF (s.data.length + 1) s.data

/-- Operator tags of `SP::BinaryOperation::Operation` (Parser.hpp). -/
inductive Operation
  | plus
  | minus
  | divide
  | multiply
  | greater
  | less
deriving DecidableEq, Repr

/-- Model of `SP::NodePtr = std::shared_ptr<Node>`: a possibly-null
pointer to an AST node.  `null` models `nullptr`; `number` models a
`Number` leaf (its `double value`); `binop` models a
`BinaryOperation` with its two child pointers, which the source can
leave null (`simpleParse` builds `BinaryOperation(oper, leftOperand,
numPtr)` with `leftOperand == nullptr` on a leading operator). -/
inductive NodeP
  | null
  | number (value : Dbl)
  | binop (op : Operation) (left right : NodeP)
deriving DecidableEq, Repr

/-- Model of `SP::Context`: the two name-to-node maps (`functions`
and `variables`; the second renamed `vars` because `variables` is a
reserved word in Lean) handed to `evaluate`.  `std::map` is modelled
as an association list; the evaluator never reads either field. -/
structure Context where
  functions : List (String × NodeP)
  vars : List (String × NodeP)

/-- Operator character used by `BinaryOperation::toString`. -/
def opChar : Operation → Char
  | .plus => '+'
  | .minus => '-'
  | .divide => '/'
  | .multiply => '*'
  | .greater => '>'
  | .less => '<'

/-- Fixed six-decimal rendering, modelling `std::to_string(double)`
(`%f` format; rounding to nearest, approximated half-away-from-zero).
Reached only for values at distance at least `1e-7` from an integer,
which no claim exercises. -/
def toFixed6 (q : Dbl) : String :=
  let sign := if Dbl.lt q ⟨0, 1⟩ then "-" else ""
  let a := Dbl.abs q
  let scaled : Int := Dbl.trunc (Dbl.add (Dbl.mul a ⟨1000000, 1⟩) ⟨1, 2⟩)
  let ipart : Int := scaled.fdiv 1000000
  let fpart : Int := scaled.emod 1000000
  let fstr := toString fpart
  let pad := String.mk (List.replicate (6 - fstr.length) '0')
  sign ++ toString ipart ++ "." ++ pad ++ fstr

/-- Model of `Number::toString` (Parser.cpp): render as an integer
when the value is within `0.0000001` of `static_cast<int>(value)`,
otherwise with `std::to_string`'s six decimals. -/
def numberToString (v : Dbl) : String :=
  if Dbl.lt (Dbl.abs (Dbl.sub v ⟨Dbl.trunc v, 1⟩)) ⟨1, 10000000⟩ then toString (Dbl.trunc v)
  else toFixed6 v

/-- Model of `Node::toString` on a node pointer.  `none` models the
undefined behavior of invoking `toString` through a null pointer (for
a `BinaryOperation`, `assert(left)` / `assert(right)` guard the
children in debug builds; the release build dereferences null). -/
def nodeToString : NodeP → Option String
  | .null => none
  | .number v => some (numberToString v)
  | .binop op l r =>
    match nodeToString l with
    | none => none
    | some ls =>
      match nodeToString r with
      | none => none
      | some rs => some (ls ++ String.mk [opChar op] ++ rs)

/-- Result of `Node::evaluate`, whose C++ type is
`std::optional<float>` within a function that can also throw:
`val v` models returning an engaged optional, `emptyOpt` a
disengaged one (no code path produces it), `thrown` a C++ exception,
and `ub` a null-pointer dereference. -/
inductive EvalRes
  | val (v : Dbl)
  | emptyOpt
  | thrown (msg : String)
  | ub
deriving DecidableEq, Repr

/-- Check that an evaluation produced a value. -/
def EvalRes.isVal : EvalRes → Bool
  | .val _ => true
  | _ => false

/-- Arithmetic of `BinaryOperation::evaluate`'s switch: comparisons
return the bool converted to float (1 or 0). -/
def applyOp (op : Operation) (lv rv : Dbl) : Dbl :=
  match op with
  | .plus => Dbl.add lv rv
  | .minus => Dbl.sub lv rv
  | .divide => Dbl.div lv rv
  | .multiply => Dbl.mul lv rv
  | .greater => if Dbl.lt rv lv then ⟨1, 1⟩ else ⟨0, 1⟩
  | .less => if Dbl.lt lv rv then ⟨1, 1⟩ else ⟨0, 1⟩

/-- Model of `Node::evaluate` on a node pointer (Parser.cpp).
`Number::evaluate` returns the stored value; `BinaryOperation::evaluate`
evaluates `left` then `right` (an exception or null dereference in the
left child prevents evaluation of the right one), throws
`"Invalid binary operation"` if either child evaluation yields a
disengaged optional, and otherwise applies the operator. -/
def evaluate (ctx : Context) : NodeP → EvalRes
  | .null => .ub
  | .number v => .val v
  | .binop op l r =>
    match evaluate ctx l with
    | .thrown m => .thrown m
    | .ub => .ub
    | lres =>
      match evaluate ctx r with
      | .thrown m => .thrown m
      | .ub => .ub
      | rres =>
        match lres, rres with
        | .val lv, .val rv => .val (applyOp op lv rv)
        | _, _ => .thrown "Invalid binary operation"

/-- Extraction of the `char` alternative from the token payload:
`std::get<char>` throws `std::bad_variant_access` when the payload
holds a different alternative. -/
def getCharE : TokenValue → Except String Char
  | .char c => .ok c
  | _ => .error "bad_variant_access"

/-- Extraction of the `double` alternative from the token payload. -/
def getNumE : TokenValue → Except String Dbl
  | .num v => .ok v
  | _ => .error "bad_variant_access"

/-- Model of `operationFromChar` (Parser.cpp): map an operator
character to its tag or throw `"Unknown operation"`. -/
def operationFromChar (c : Char) : Except String Operation :=
  if c = '+' then .ok .plus
  else if c = '-' then .ok .minus
  else if c = '/' then .ok .divide
  else if c = '*' then .ok .multiply
  else if c = '<' then .ok .less
  else if c = '>' then .ok .greater
  else .error "Unknown operation"

/-- Loop body of `simpleParse` (Parser.cpp): fold the token range
left to right, remembering the tree built so far (`leftOperand`,
initially null) and a pending operator.  A number with no pending
operator replaces a null `leftOperand` and is an error otherwise; a
number with a pending operator becomes the right child of a new
`BinaryOperation` whose left child is the current `leftOperand`,
even when that is null. -/
def simpleParseGo : List Token → NodeP → Option Operation → Except String NodeP
  | [], left, _ => .ok left
  | t :: rest, left, oper =>
    match t.type with
    | TokenType.operation =>
      match getCharE t.value with
      | .error m => .error m
      | .ok c =>
        match operationFromChar c with
        | .error m => .error m
        | .ok op => simpleParseGo rest left (some op)
    | TokenType.number =>
      match getNumE t.value with
      | .error m => .error m
      | .ok v =>
        match oper with
        | none =>
          if left = NodeP.null then simpleParseGo rest (NodeP.number v) none
          else .error "Parsing error: expected binary operation not number"
        | some op => simpleParseGo rest (NodeP.binop op left (NodeP.number v)) none
    | _ => .error "Unexpected token"

/-- Model of `simpleParse(begin, end)`: parse a flat token range into
a left-associated chain, with no precedence distinction. -/
def simpleParse (ts : List Token) : Except String NodeP :=
  simpleParseGo ts NodeP.null none

/-- Outcome of `SP::Parse`: a returned root pointer (possibly null),
a thrown exception, an out-of-bounds iterator dereference (undefined
behavior), or fuel exhaustion (unreachable: the scan position
strictly increases and is bounded by the token count). -/
inductive ParseOut
  | ok (root : NodeP)
  | err (msg : String)
  | ub
  | fuelOut
deriving DecidableEq, Repr

/-- Predicate of the `find_if` lambda in `Parse` (Parser.cpp): a
high-precedence operator token (`'/'` or `'*'`).  `std::get<char>`
on an operation token holding a non-char payload throws. -/
def isHighE (t : Token) : Except String Bool :=
  if t.type = TokenType.operation then
    match getCharE t.value with
    | .error m => .error m
    | .ok c => .ok (c = '/' || c = '*')
  else .ok false

/-- Index (relative to the front of the list) of the first
high-precedence operator token, or the list length when none occurs. -/
def findHighIdx : List Token → Except String Nat
  | [] => .ok 0
  | t :: rest =>
    match isHighE t with
    | .error m => .error m
    | .ok true => .ok 0
    | .ok false =>
      match findHighIdx rest with
      | .error m => .error m
      | .ok i => .ok (i + 1)

/-- Model of `std::find_if(tokens.begin() + start, end, isHigh)`:
absolute index of the first high-precedence operator at or after
`start`, or `tokens.length` when none remains. -/
def findHighFrom (ts : List Token) (start : Nat) : Except String Nat :=
  match findHighIdx (ts.drop start) with
  | .error m => .error m
  | .ok i => .ok (start + i)

/-- Model of the `extractNumber` lambda in `Parse`: the token at the
given index must be a number; its `double` payload becomes a `Number`
node. -/
def extractNumberM (ts : List Token) (i : Nat) : Except String Dbl :=
  match ts[i]? with
  | none => .error "out_of_bounds"
  | some t =>
    if t.type = TokenType.number then getNumE t.value
    else .error "Parsing error: expected number"

/-- Intermediate result used while modelling one iteration of the
`Parse` loop: a computed value, a thrown exception, or undefined
behavior. -/
inductive PartialR (α : Type)
  | ok (a : α)
  | err (msg : String)
  | ub
deriving DecidableEq, Repr

/-- Block of `Parse` (Parser.cpp lines 323-349) run after the tight
`operPtr` node for the found `*`/`/` triple has been built: when
`firstPriorityPos - 2 != tokens.begin()`, the token two places before
the operator must itself be an operation; `simpleParse` is re-run
from `tokens.begin()` (not from the last scan position — the computed
`parsePos` is never used) up to that operation, and the results are
joined, further joined with the running tree through `currentOper`
when a tree exists.  When `firstPriorityPos` is `tokens.begin() + 1`,
the pointer `firstPriorityPos - 2` equals `begin - 1`, so the
comparison is true and the subsequent dereference reads before the
vector: undefined behavior, modelled as `ub`. -/
def buildState (ts : List Token) (fpp : Nat) (currentState : NodeP)
    (currentOper : Option Operation) (operPtr : NodeP) : PartialR NodeP :=
  if fpp = 2 then .ok operPtr
  else if fpp < 2 then .ub
  else
    match ts[fpp - 2]? with
    | none => .ub
    | some lt =>
      if lt.type = TokenType.operation then
        match simpleParse (ts.take (fpp - 2)) with
        | .error m => .err m
        | .ok leftOperand =>
          match getCharE lt.value with
          | .error m => .err m
          | .ok lc =>
            match operationFromChar lc with
            | .error m => .err m
            | .ok leftOperation =>
              let subTreeHead := NodeP.binop leftOperation leftOperand operPtr
              if currentState = NodeP.null then .ok subTreeHead
              else
                match currentOper with
                | none => .err "bad_optional_access"
                | some co => .ok (NodeP.binop co currentState subTreeHead)
      else .err "Parsing error: expected operation"

/-- Loop of `SP::Parse` (Parser.cpp lines 275-361), fuel-indexed.
State: the scan position `lastFPP` (`lastFirstPriorityPos`), the
running tree `currentState` and the pending low-precedence operator
`currentOper`.  Each iteration finds the first `*`/`/` at or after
`lastFPP + 1`; if none remains it closes the tree from the tail of
the tokens (returning the bare running tree when at most two tokens
remain), otherwise it builds the tight triple around the operator,
joins it to the left context via `buildState`, records the operator
two places after as pending, and advances the scan position. -/
def ParseGo (ts : List Token) : Nat → Nat → NodeP → Option Operation → ParseOut
  | 0, _, _, _ => .fuelOut
  | fuel + 1, lastFPP, currentState, currentOper =>
    let n := ts.length
    if lastFPP = n then .ok currentState
    else
      match findHighFrom ts (lastFPP + 1) with
      | .error m => .err m
      | .ok fpp =>
        if fpp = n then
          if n - lastFPP ≤ 2 then .ok currentState
          else if currentState = NodeP.null then
            match simpleParse ts with
            | .error m => .err m
            | .ok root => .ok root
          else
            match simpleParse (ts.drop (lastFPP + 3)) with
            | .error m => .err m
            | .ok rightOperand =>
              match currentOper with
              | none => .err "bad_optional_access"
              | some co => .ok (NodeP.binop co currentState rightOperand)
        else
          if fpp = 0 ∨ fpp + 1 = n then .err "Parsing error: unexpected operation"
          else
            match extractNumberM ts (fpp - 1) with
            | .error m => .err m
            | .ok leftNum =>
              match extractNumberM ts (fpp + 1) with
              | .error m => .err m
              | .ok rightNum =>
                match ts[fpp]? with
                | none => .ub
                | some ft =>
                  match getCharE ft.value with
                  | .error m => .err m
                  | .ok fc =>
                    match operationFromChar fc with
                    | .error m => .err m
                    | .ok operation =>
                      let operPtr := NodeP.binop operation (NodeP.number leftNum) (NodeP.number rightNum)
                      match buildState ts fpp currentState currentOper operPtr with
                      | .err m => .err m
                      | .ub => .ub
                      | .ok currentState2 =>
                        if fpp + 2 = n then ParseGo ts fuel fpp currentState2 currentOper
                        else
                          match ts[fpp + 2]? with
                          | none => .ub
                          | some t2 =>
                            if t2.type = TokenType.operation then
                              match getCharE t2.value with
                              | .error m => .err m
                              | .ok c2 =>
                                match operationFromChar c2 with
                                | .error m => .err m
                                | .ok op2 => ParseGo ts fuel fpp currentState2 (some op2)
                            else .err "Parsing error: expected operation"

/-- Model of `SP::Parse(tokens)`: run the parsing loop from position
0 with a null running tree and no pending operator.  The loop makes
at most one iteration per token, so `length + 1` units of fuel always
suffice. -/
def Parse (ts : List Token) : ParseOut :=
  ParseGo ts (ts.length + 1) 0 NodeP.null none

/-- Full pipeline of the tests' `checkExpression`: tokenize a source
string and parse the tokens; a tokenizer exception propagates. -/
def parseString (s : String) : ParseOut :=
  match Tokenize s with
  | .error m => .err m
  | .ok ts => Parse ts

/-- Rendering step of `checkExpression`: `Parse(Tokenize(s))->toString()`.
`none` when the parse does not return a root (so that calling
`toString` would not be possible); otherwise the rendering of the
returned root pointer. -/
def renderString (s : String) : Option (Option String) :=
  match parseString s with
  | .ok root => some (nodeToString root)
  | _ => none

/-- Evaluation step of `checkExpression`:
`Parse(Tokenize(s))->evaluate(context)` with an empty context. -/
def evalString (s : String) : Option EvalRes :=
  match parseString s with
  | .ok root => some (evaluate ⟨[], []⟩ root)
  | _ => none

/-- Check that every leaf reachable from a node pointer is a
`Number` (Literal) node; in particular no null child pointer occurs. -/
def leavesLiteral : NodeP → Bool
  | .null => false
  | .number _ => true
  | .binop _ l r => leavesLiteral l && leavesLiteral r

/-- Helper: an evaluation that produced a value is a `val`. -/
theorem isVal_exists {r : EvalRes} (h : r.isVal = true) : ∃ v, r = EvalRes.val v := by
  cases r with
  | val v => exact ⟨v, rfl⟩
  | emptyOpt => simp [EvalRes.isVal] at h
  | thrown m => simp [EvalRes.isVal] at h
  | ub => simp [EvalRes.isVal] at h

/-- Helper: skipping whitespace does nothing on a non-space head. -/
theorem skipSpaces_not_space {c : Char} {cs : List Char} (hs : isSpaceC c = false) :
    skipSpacesM (c :: cs) = c :: cs := by
  unfold skipSpacesM
  rw [List.dropWhile_cons_of_neg (by simp [hs])]

/-- Helper: a letter is not whitespace. -/
theorem alpha_not_space {c : Char} (h : isAlphaC c = true) : isSpaceC c = false := by
  simp only [isAlphaC, decide_eq_true_eq] at h
  simp only [isSpaceC, decide_eq_false_iff_not]
  omega

/-- Helper: one step of `parseToken` on a letter-led cursor (the
letter-led branch of `Tokenizer::parseToken`). -/
theorem parseTokenM_alpha {c : Char} (cs : List Char) (h : isAlphaC c = true) :
    parseTokenM (c :: cs) =
      .ok (some (⟨if String.mk ((c :: cs).takeWhile lexAcceptor) ∈ KEYWORDS then TokenType.identifier
                  else TokenType.keyword,
                  TokenValue.str (String.mk ((c :: cs).takeWhile lexAcceptor))⟩,
                 (c :: cs).dropWhile lexAcceptor)) := by
  unfold parseTokenM
  rw [skipSpaces_not_space (alpha_not_space h)]
  simp [h]

/-- Helper: one step of the tokenization loop once `parseToken` has
produced a token. -/
theorem tokenizeF_cons_step {cs : List Char} {t : Token} {rest : List Char} (n : Nat)
    (h : parseTokenM cs = .ok (some (t, rest))) :
    tokenizeF (n + 1) cs = Except.map (fun ts => t :: ts) (tokenizeF n rest) := by
  show (match parseTokenM cs with
    | .error m => .error m
    | .ok none => .ok []
    | .ok (some (t2, rest2)) =>
      match tokenizeF n rest2 with
      | .error m => .error m
      | .ok ts => .ok (t2 :: ts)) = Except.map (fun ts => t :: ts) (tokenizeF n rest)
  rw [h]
  show (match tokenizeF n rest with
    | .error m => .error m
    | .ok ts => .ok (t :: ts)) = Except.map (fun ts => t :: ts) (tokenizeF n rest)
  cases tokenizeF n rest <;> rfl

/-- C1: the claim says every well-formed chain `number (op number)*`,
including a single number token, parses without error to a non-null
root.  The code disagrees: `Parse` of the single token `number(2)`
(for instance from `Tokenize "2"`) takes the `end - lastFirstPriorityPos
<= 2` early return on its first iteration and hands back the initial
null `currentState` — no error is raised and no AST exists. -/
theorem c1_single_number_yields_null_root :
    Parse [⟨TokenType.number, TokenValue.num ⟨2, 1⟩⟩] = ParseOut.ok NodeP.null ∧
    parseString "2" = ParseOut.ok NodeP.null := by decide

/-- C2: the claim says `toString` reproduces every accepted input
exactly.  The code disagrees on the accepted string
`"1+2*3-4+5*6"`: the second loop iteration of `Parse` re-parses the
left operand from `tokens.begin()` instead of the recorded scan
position, so the rendered tree duplicates the prefix, producing
`"1+2*3-1+2*3-4+5*6"` — the round trip the repository's own
`TEST_CASE("1+2*3-4+5*6")` requires fails. -/
theorem c2_roundtrip_broken :
    renderString "1+2*3-4+5*6" = some (some "1+2*3-1+2*3-4+5*6") ∧
    "1+2*3-1+2*3-4+5*6" ≠ "1+2*3-4+5*6" := by decide

/-- C3: the claim says a leading or trailing operation token is a
fatal parse error.  The code disagrees for low-precedence operators:
both `[number(2), operation(+)]` and `[operation(+), number(2)]` hit
the `end - lastFirstPriorityPos <= 2` early return and yield a null
root with no exception. -/
theorem c3_dangling_operator_not_rejected :
    Parse [⟨TokenType.number, TokenValue.num ⟨2, 1⟩⟩, ⟨TokenType.operation, TokenValue.char '+'⟩] =
      ParseOut.ok NodeP.null ∧
    Parse [⟨TokenType.operation, TokenValue.char '+'⟩, ⟨TokenType.number, TokenValue.num ⟨2, 1⟩⟩] =
      ParseOut.ok NodeP.null := by decide

/-- C4: evaluating the parsed ASTs.  `"1+2*3"` does give 7, but the
claim's (and the repository test suite's) expected 33 and 26 for the
longer chains are not what the code computes: because the second
`Parse` iteration re-parses its left operand from `tokens.begin()`,
`"1+2*3-4+5*6"` evaluates to `7 - (((1+2)*3-4) + 5*6) = -28` and
`"1+2*3-4+5*6-7"` to `-35`. -/
theorem c4_evaluation_results :
    evalString "1+2*3" = some (EvalRes.val ⟨7, 1⟩) ∧
    evalString "1+2*3-4+5*6" = some (EvalRes.val ⟨-28, 1⟩) ∧
    evalString "1+2*3-4+5*6-7" = some (EvalRes.val ⟨-35, 1⟩) := by decide

/-- C5: `Parse` on `[number(2), operation(+), number(2), number(2)]`
reaches `simpleParse`, whose number case finds a non-null
`leftOperand` with no pending operator and throws — the sequence is
rejected, no token is silently dropped. -/
theorem c5_consecutive_numbers_rejected :
    Parse [⟨TokenType.number, TokenValue.num ⟨2, 1⟩⟩, ⟨TokenType.operation, TokenValue.char '+'⟩,
           ⟨TokenType.number, TokenValue.num ⟨2, 1⟩⟩, ⟨TokenType.number, TokenValue.num ⟨2, 1⟩⟩] =
      ParseOut.err "Parsing error: expected binary operation not number" := by decide

/-- C6 (amended): for every AST whose leaves are all Literal
(`Number`) nodes — i.e. with no null child pointers — `evaluate`
returns a value; the `EvaluationError` branch is unreachable on such
trees.  (The claim's parenthetical "which includes every tree
produced by Parse" is refuted separately: `Parse` can hand back trees
with null children.) -/
theorem c6_literal_leaves_evaluate (ctx : Context) (t : NodeP) (h : leavesLiteral t = true) :
    (evaluate ctx t).isVal = true := by
  induction t with
  | null => simp [leavesLiteral] at h
  | number v => rfl
  | binop op l r ihl ihr =>
    simp only [leavesLiteral, Bool.and_eq_true] at h
    obtain ⟨lv, hl⟩ := isVal_exists (ihl h.1)
    obtain ⟨rv, hr⟩ := isVal_exists (ihr h.2)
    simp [evaluate, hl, hr, EvalRes.isVal]

/-- Witness for C6: a two-leaf tree with Literal leaves evaluates to
a value. -/
theorem c6_witness :
    leavesLiteral (NodeP.binop .plus (NodeP.number ⟨2, 1⟩) (NodeP.number ⟨2, 1⟩)) = true ∧
    (evaluate ⟨[], []⟩ (NodeP.binop .plus (NodeP.number ⟨2, 1⟩) (NodeP.number ⟨2, 1⟩))).isVal = true :=
  ⟨by decide, c6_literal_leaves_evaluate ⟨[], []⟩ _ (by decide)⟩

/-- Counterexample for C6's parenthetical: `Parse` on the token
sequence of `"+2+3"` returns (without error) a tree whose leftmost
`BinaryOperation` has a null left child; evaluating it dereferences
null instead of producing a value. -/
theorem c6_parse_emits_tree_with_null_child :
    Parse [⟨TokenType.operation, TokenValue.char '+'⟩, ⟨TokenType.number, TokenValue.num ⟨2, 1⟩⟩,
           ⟨TokenType.operation, TokenValue.char '+'⟩, ⟨TokenType.number, TokenValue.num ⟨3, 1⟩⟩] =
      ParseOut.ok (NodeP.binop .plus (NodeP.binop .plus NodeP.null (NodeP.number ⟨2, 1⟩))
        (NodeP.number ⟨3, 1⟩)) ∧
    leavesLiteral (NodeP.binop .plus (NodeP.binop .plus NodeP.null (NodeP.number ⟨2, 1⟩))
        (NodeP.number ⟨3, 1⟩)) = false ∧
    (evaluate ⟨[], []⟩ (NodeP.binop .plus (NodeP.binop .plus NodeP.null (NodeP.number ⟨2, 1⟩))
        (NodeP.number ⟨3, 1⟩))).isVal = false := by decide

/-- C7: for every letter-led cursor position, `parseToken` tags the
maximal lexeme `identifier` exactly when it is one of the reserved
words in `KEYWORDS` ("func", "if", "else") and `keyword` otherwise —
the inverted mapping — and consequently the first token of
`Tokenize` on a letter-led input carries that same tag. -/
theorem c7_keyword_identifier_inverted (c : Char) (cs : List Char) (h : isAlphaC c = true) :
    parseTokenM (c :: cs) =
      .ok (some (⟨if String.mk ((c :: cs).takeWhile lexAcceptor) ∈ KEYWORDS then TokenType.identifier
                  else TokenType.keyword,
                  TokenValue.str (String.mk ((c :: cs).takeWhile lexAcceptor))⟩,
                 (c :: cs).dropWhile lexAcceptor)) ∧
    ∀ ts, Tokenize (String.mk (c :: cs)) = .ok ts →
      ts.head? = some ⟨if String.mk ((c :: cs).takeWhile lexAcceptor) ∈ KEYWORDS then TokenType.identifier
                       else TokenType.keyword,
                       TokenValue.str (String.mk ((c :: cs).takeWhile lexAcceptor))⟩ := by
  refine ⟨parseTokenM_alpha cs h, ?_⟩
  intro ts hts
  have hts2 : tokenizeF ((c :: cs).length + 1) (c :: cs) = .ok ts := hts
  rw [tokenizeF_cons_step ((c :: cs).length) (parseTokenM_alpha cs h)] at hts2
  cases htail : tokenizeF ((c :: cs).length) ((c :: cs).dropWhile lexAcceptor) with
  | error m => rw [htail] at hts2; simp [Except.map] at hts2
  | ok ts2 =>
    rw [htail] at hts2
    simp only [Except.map, Except.ok.injEq] at hts2
    rw [← hts2]
    rfl

/-- Witness for C7: the reserved word "if" is tagged `identifier`. -/
theorem c7_witness :
    Tokenize (String.mk ['i', 'f']) = .ok [⟨TokenType.identifier, TokenValue.str "if"⟩] ∧
    [(⟨TokenType.identifier, TokenValue.str "if"⟩ : Token)].head? =
      some ⟨TokenType.identifier, TokenValue.str "if"⟩ := by
  refine ⟨by decide, ?_⟩
  have h := (c7_keyword_identifier_inverted 'i' ['f'] (by decide)).2
    [⟨TokenType.identifier, TokenValue.str "if"⟩] (by decide)
  exact h.trans (by decide)

/-- C8 (amended): when the scanner's cursor rests (with no leading
whitespace) on a character that is not whitespace, not a letter, not
a digit and not one of `( ) , + - / * < >` (i.e. its single-character
classification is `unknown`), `Tokenize` emits an unknown token
carrying that character and scans on over the remaining input — it
neither halts nor raises there. -/
theorem c8_unknown_char_scans_on (c : Char) (cs : List Char)
    (hs : isSpaceC c = false) (ha : isAlphaC c = false) (hd : isDigitC c = false)
    (hu : charTokenType c = TokenType.unknown) :
    Tokenize (String.mk (c :: cs)) =
      Except.map (fun ts => (⟨TokenType.unknown, TokenValue.char c⟩ : Token) :: ts)
        (Tokenize (String.mk cs)) := by
  have hpt : parseTokenM (c :: cs) = .ok (some (⟨TokenType.unknown, TokenValue.char c⟩, cs)) := by
    unfold parseTokenM
    rw [skipSpaces_not_space hs]
    simp [ha, hd, hu]
  exact tokenizeF_cons_step (cs.length + 1) hpt

/-- Witness for C8: the input "_1" tokenizes to an unknown token for
'_' followed by the tokens of "1". -/
theorem c8_witness :
    isSpaceC '_' = false ∧ isAlphaC '_' = false ∧ isDigitC '_' = false ∧
    charTokenType '_' = TokenType.unknown ∧
    Tokenize (String.mk ['_', '1']) =
      Except.map (fun ts => (⟨TokenType.unknown, TokenValue.char '_'⟩ : Token) :: ts)
        (Tokenize (String.mk ['1'])) :=
  ⟨by decide, by decide, by decide, by decide,
    c8_unknown_char_scans_on '_' ['1'] (by decide) (by decide) (by decide) (by decide)⟩

/-- Counterexample for C8 as stated: the input "a_b" contains '_',
which is not a letter, digit, whitespace or one of the listed
punctuation characters, yet tokenization produces a single `keyword`
token and no `unknown` token — the character was absorbed into the
letter-led lexeme. -/
theorem c8_char_inside_lexeme_not_unknown :
    Tokenize (String.mk ['a', '_', 'b']) = .ok [⟨TokenType.keyword, TokenValue.str "a_b"⟩] ∧
    (⟨TokenType.unknown, TokenValue.char '_'⟩ : Token) ∉
      [(⟨TokenType.keyword, TokenValue.str "a_b"⟩ : Token)] := by decide

/-- C9: evaluation never reads the context's function or variable
mappings: for every node pointer the result of `evaluate` is the
same under any two contexts. -/
theorem c9_evaluate_ignores_context (t : NodeP) (c1 c2 : Context) :
    evaluate c1 t = evaluate c2 t := by
  induction t with
  | null => rfl
  | number v => rfl
  | binop op l r ihl ihr => simp only [evaluate, ihl, ihr]

/-- C10: `Parse` of an empty token sequence — such as produced by
tokenizing an empty or all-whitespace string — returns the initial
null root without raising any error. -/
theorem c10_empty_sequence_null_without_error :
    Parse [] = ParseOut.ok NodeP.null ∧
    Tokenize "" = .ok [] ∧
    Tokenize "  " = .ok [] ∧
    parseString "  " = ParseOut.ok NodeP.null := by decide
